import Mathlib

/-!
Verification of `lighthouse-core/gather/computed/metrics/consistently-interactive.js`.

The source computes the "consistently interactive" page-load metric from a
CPU timeline (long main-thread tasks) and a network timeline (network quiet
periods).  JS numbers are modelled as rationals (`ℚ`); every arithmetic
operation performed by the source on the inputs considered here (addition,
subtraction, division by 1000, comparison, `Math.max`) is exact on rationals.
A JS timestamp that is absent is modelled as `0`, which is how the source's
falsiness checks (`!timestamps.firstMeaningfulPaint`) treat it.

Two collaborators of the source file live outside it and are therefore taken
as inputs rather than re-implemented:
`NetworkRecorder.findNetworkQuietPeriods` (its output list of network quiet
periods is a parameter) and
`TracingProcessor.getMainThreadTopLevelEvents` (its output list of
main-thread events is a parameter).
-/

/-- A `TimePeriod` record `{start, end}` from the source, times in
milliseconds. -/
structure TimePeriod where
  start : ℚ
  «end» : ℚ
deriving DecidableEq, Repr

/-- A main-thread top-level event as returned by
`TracingProcessor.getMainThreadTopLevelEvents`: the source reads its
`start`, `end` and `duration` fields (times in milliseconds relative to
navigation start). -/
structure Event where
  start : ℚ
  «end» : ℚ
  duration : ℚ
deriving DecidableEq, Repr

/-- The named trace timestamps `traceOfTab.timestamps` used by the source,
in microseconds (the source divides them by 1000 to obtain milliseconds).
An absent timestamp is modelled as `0` (JS falsy). -/
structure Timestamps where
  navigationStart : ℚ
  firstMeaningfulPaint : ℚ
  domContentLoaded : ℚ
  traceEnd : ℚ
deriving DecidableEq, Repr

/-- The error kinds of `LHError.errors` raised by the source. -/
inductive LHErrorKind where
  | NO_FMP
  | NO_DCL
  | NO_TTI_CPU_IDLE_PERIOD
  | NO_TTI_NETWORK_IDLE_PERIOD
deriving DecidableEq, Repr

/-- `REQUIRED_QUIET_WINDOW = 5000` from the source. -/
def REQUIRED_QUIET_WINDOW : ℚ := 5000

/-- The gap-emitting loop of `_findCPUQuietPeriods`: for each task emit the
quiet period from its end to the next task's start (shifted by
`navStartTsInMs`), and from the last task's end to `traceEndTsInMs`. -/
def cpuGapPeriods (navStartTsInMs traceEndTsInMs : ℚ) :
    List TimePeriod → List TimePeriod
  | [] => []
  | [task] => [⟨task.«end» + navStartTsInMs, traceEndTsInMs⟩]
  | task :: next :: rest =>
      ⟨task.«end» + navStartTsInMs, next.start + navStartTsInMs⟩ ::
        cpuGapPeriods navStartTsInMs traceEndTsInMs (next :: rest)

/-- `ConsistentlyInteractive._findCPUQuietPeriods(longTasks, traceOfTab)`,
with the two derived quantities `navStartTsInMs = navigationStart / 1000`
and `traceEndTsInMs = traceEnd / 1000` passed directly.  If the long-task
list is empty it returns `[{start: 0, end: traceEndTsInMs}]`; otherwise it
pushes `{start: 0, end: firstTask.start + navStartTsInMs}` followed by the
gap between each task and its successor and finally the gap from the last
task's end to `traceEndTsInMs`. -/
def _findCPUQuietPeriods (longTasks : List TimePeriod)
    (navStartTsInMs traceEndTsInMs : ℚ) : List TimePeriod :=
  match longTasks with
  | [] => [⟨0, traceEndTsInMs⟩]
  | first :: _ =>
      ⟨0, first.start + navStartTsInMs⟩ ::
        cpuGapPeriods navStartTsInMs traceEndTsInMs longTasks

/-- The predicate `isLongEnoughQuietPeriod` defined inside
`findOverlappingQuietPeriods`:
`period.end > FMPTsInMs + REQUIRED_QUIET_WINDOW &&
 period.end - period.start >= REQUIRED_QUIET_WINDOW`. -/
def isLongEnoughQuietPeriod (FMPTsInMs : ℚ) (period : TimePeriod) : Bool :=
  decide (period.«end» > FMPTsInMs + REQUIRED_QUIET_WINDOW) &&
    decide (period.«end» - period.start ≥ REQUIRED_QUIET_WINDOW)

/-- Outcome of the two-cursor `while` loop of
`findOverlappingQuietPeriods`: either a matched pair is returned, or the
loop exits and the source throws
`cpuCandidate ? NO_TTI_NETWORK_IDLE_PERIOD : NO_TTI_CPU_IDLE_PERIOD`. -/
inductive OverlapResult where
  | found (cpuQuietPeriod networkQuietPeriod : TimePeriod)
  | noNetworkIdle
  | noCpuIdle
deriving DecidableEq, Repr

/-- The two-cursor `while (cpuCandidate && networkCandidate)` loop of
`findOverlappingQuietPeriods`.  The heads of the two lists are the current
`cpuCandidate` and `networkCandidate`; `shift()` is modelled by recursing on
the tail.  When the loop exits, a remaining (truthy) `cpuCandidate` means
the network queue was exhausted (`noNetworkIdle`); an exhausted CPU queue
means `noCpuIdle`. -/
def findOverlapLoop : List TimePeriod → List TimePeriod → OverlapResult
  | cpu :: cpus, net :: nets =>
      if cpu.start ≥ net.start then
        if net.«end» ≥ cpu.start + REQUIRED_QUIET_WINDOW then
          .found cpu net
        else
          findOverlapLoop (cpu :: cpus) nets
      else
        if cpu.«end» ≥ net.start + REQUIRED_QUIET_WINDOW then
          .found cpu net
        else
          findOverlapLoop cpus (net :: nets)
  | _ :: _, [] => .noNetworkIdle
  | [], _ => .noCpuIdle
termination_by cpus nets => cpus.length + nets.length

/-- The record returned by `findOverlappingQuietPeriods` on success. -/
structure QuietPeriodInfo where
  cpuQuietPeriod : TimePeriod
  networkQuietPeriod : TimePeriod
  cpuQuietPeriods : List TimePeriod
  networkQuietPeriods : List TimePeriod
deriving DecidableEq, Repr

/-- The filtered CPU quiet-period list built by
`findOverlappingQuietPeriods`:
`this._findCPUQuietPeriods(longTasks, traceOfTab)
     .filter(isLongEnoughQuietPeriod)`. -/
def cpuFiltered (longTasks : List TimePeriod) (ts : Timestamps) :
    List TimePeriod :=
  (_findCPUQuietPeriods longTasks (ts.navigationStart / 1000)
      (ts.traceEnd / 1000)).filter
    (isLongEnoughQuietPeriod (ts.firstMeaningfulPaint / 1000))

/-- The filtered network quiet-period list built by
`findOverlappingQuietPeriods`; `networkQuietPeriodsRaw` stands for the list
returned by the external `NetworkRecorder.findNetworkQuietPeriods`. -/
def netFiltered (networkQuietPeriodsRaw : List TimePeriod) (ts : Timestamps) :
    List TimePeriod :=
  networkQuietPeriodsRaw.filter
    (isLongEnoughQuietPeriod (ts.firstMeaningfulPaint / 1000))

/-- `ConsistentlyInteractive.findOverlappingQuietPeriods(longTasks,
networkRecords, traceOfTab)`.  The network quiet periods computed by the
external `NetworkRecorder` from `networkRecords` are passed as the list
`networkQuietPeriodsRaw`.  A thrown `LHError` is modelled as
`Except.error`. -/
def findOverlappingQuietPeriods (longTasks : List TimePeriod)
    (networkQuietPeriodsRaw : List TimePeriod) (ts : Timestamps) :
    Except LHErrorKind QuietPeriodInfo :=
  let cpuQuietPeriods := cpuFiltered longTasks ts
  let networkQuietPeriods := netFiltered networkQuietPeriodsRaw ts
  match findOverlapLoop cpuQuietPeriods networkQuietPeriods with
  | .found c n => .ok ⟨c, n, cpuQuietPeriods, networkQuietPeriods⟩
  | .noNetworkIdle => .error .NO_TTI_NETWORK_IDLE_PERIOD
  | .noCpuIdle => .error .NO_TTI_CPU_IDLE_PERIOD

/-- The metric record `{timing, timestamp}` returned by
`computeObservedMetric`. -/
structure MetricResult where
  timing : ℚ
  timestamp : ℚ
deriving DecidableEq, Repr

/-- `ConsistentlyInteractive.computeObservedMetric(data, artifacts)`.
`mainThreadEvents` stands for the list returned by the external
`TracingProcessor.getMainThreadTopLevelEvents(traceOfTab)`, and
`networkQuietPeriodsRaw` for the network quiet periods computed by the
external `NetworkRecorder` from `data.networkRecords`.  The source first
throws `NO_FMP` / `NO_DCL` when the corresponding timestamp is falsy, then
filters the events to those with `duration >= 50`, runs
`findOverlappingQuietPeriods`, and finally computes
`timestamp = Math.max(cpuQuietPeriod.start, FMP/1000, DCL/1000) * 1000` and
`timing = (timestamp - navigationStart) / 1000`. -/
def computeObservedMetric (mainThreadEvents : List Event)
    (networkQuietPeriodsRaw : List TimePeriod) (ts : Timestamps) :
    Except LHErrorKind MetricResult :=
  if ts.firstMeaningfulPaint = 0 then .error .NO_FMP
  else if ts.domContentLoaded = 0 then .error .NO_DCL
  else
    let longTasks :=
      (mainThreadEvents.filter (fun event => decide (event.duration ≥ 50))).map
        (fun event => TimePeriod.mk event.start event.«end»)
    match findOverlappingQuietPeriods longTasks networkQuietPeriodsRaw ts with
    | .error e => .error e
    | .ok quietPeriodInfo =>
        let timestamp :=
          max (max quietPeriodInfo.cpuQuietPeriod.start
                (ts.firstMeaningfulPaint / 1000))
            (ts.domContentLoaded / 1000) * 1000
        let timing := (timestamp - ts.navigationStart) / 1000
        .ok ⟨timing, timestamp⟩

/-- The "qualifying pair" rule of the overlap matcher, read off the branch
conditions of the source loop: when `cpu.start >= net.start` the match
requires `net.end >= cpu.start + REQUIRED_QUIET_WINDOW`, otherwise it
requires `cpu.end >= net.start + REQUIRED_QUIET_WINDOW`. -/
def qualifies (cpu net : TimePeriod) : Bool :=
  if cpu.start ≥ net.start then
    decide (net.«end» ≥ cpu.start + REQUIRED_QUIET_WINDOW)
  else
    decide (cpu.«end» ≥ net.start + REQUIRED_QUIET_WINDOW)

/-- Ascending order by `start`, the precondition on the matcher's inputs. -/
def AscendingByStart (l : List TimePeriod) : Prop :=
  l.Pairwise (fun a b => a.start ≤ b.start)

/-- The union, as a set of instants, of a list of time periods. -/
def listSet (l : List TimePeriod) : Set ℚ :=
  l.foldr (fun p s => Set.Icc p.start p.«end» ∪ s) ∅

/-- Shift a period by `navMs` milliseconds, used to express navigation-start
relative long tasks in the absolute-millisecond frame of the derived CPU
quiet periods. -/
def shiftPeriod (navMs : ℚ) (p : TimePeriod) : TimePeriod :=
  ⟨p.start + navMs, p.«end» + navMs⟩

/-! ## Helper lemmas about the overlap-matcher loop -/

/-- If the current network candidate fails the CPU-branch containment test,
it cannot qualify with the current CPU candidate or any later one. -/
theorem qualifies_false_of_net_discard {cpu net c : TimePeriod}
    (hstart : cpu.start ≥ net.start)
    (hfail : ¬ net.«end» ≥ cpu.start + REQUIRED_QUIET_WINDOW)
    (hc : cpu.start ≤ c.start) : qualifies c net = false := by
  have h1 : c.start ≥ net.start := le_trans hstart hc
  unfold qualifies
  rw [if_pos h1]
  push_neg at hfail
  simp only [decide_eq_false_iff_not, not_le]
  linarith

/-- If the current CPU candidate fails the network-branch containment test,
it cannot qualify with the current network candidate or any later one. -/
theorem qualifies_false_of_cpu_discard {cpu net n : TimePeriod}
    (hstart : ¬ cpu.start ≥ net.start)
    (hfail : ¬ cpu.«end» ≥ net.start + REQUIRED_QUIET_WINDOW)
    (hn : net.start ≤ n.start) : qualifies cpu n = false := by
  push_neg at hstart hfail
  have h1 : ¬ cpu.start ≥ n.start := by
    push_neg
    linarith
  unfold qualifies
  rw [if_neg h1]
  simp only [decide_eq_false_iff_not, not_le]
  linarith

/-- In an ascending list, the head has the least `start`. -/
theorem head_start_le {a c : TimePeriod} {l : List TimePeriod}
    (h : AscendingByStart (a :: l)) (hc : c ∈ a :: l) : a.start ≤ c.start := by
  rcases List.mem_cons.mp hc with rfl | hc
  · exact le_refl _
  · exact List.rel_of_pairwise_cons h hc

/-- The tail of an ascending list is ascending. -/
theorem AscendingByStart.tail {a : TimePeriod} {l : List TimePeriod}
    (h : AscendingByStart (a :: l)) : AscendingByStart l :=
  (List.pairwise_cons.mp h).2

/-- A pair returned by the matcher loop comes from the two input lists and
satisfies the qualifying rule. -/
theorem findOverlapLoop_found_sound :
    ∀ (cpus nets : List TimePeriod) (p q : TimePeriod),
      findOverlapLoop cpus nets = OverlapResult.found p q →
      p ∈ cpus ∧ q ∈ nets ∧ qualifies p q = true := by
  intro cpus nets
  induction cpus, nets using findOverlapLoop.induct with
  | case1 cpu cpus net nets h1 h2 =>
      intro p q h
      simp only [findOverlapLoop, h1, h2, if_true, if_pos] at h
      simp only [OverlapResult.found.injEq] at h
      obtain ⟨rfl, rfl⟩ := h
      refine ⟨List.mem_cons_self _ _, List.mem_cons_self _ _, ?_⟩
      unfold qualifies
      rw [if_pos h1]
      simpa using h2
  | case2 cpu cpus net nets h1 h2 ih =>
      intro p q h
      simp only [findOverlapLoop, h1, h2, if_true, if_false] at h
      obtain ⟨hp, hq, hqual⟩ := ih p q h
      exact ⟨hp, List.mem_cons_of_mem _ hq, hqual⟩
  | case3 cpu cpus net nets h1 h2 =>
      intro p q h
      simp only [findOverlapLoop, h1, h2, if_true, if_false] at h
      simp only [OverlapResult.found.injEq] at h
      obtain ⟨rfl, rfl⟩ := h
      refine ⟨List.mem_cons_self _ _, List.mem_cons_self _ _, ?_⟩
      unfold qualifies
      rw [if_neg h1]
      simpa using h2
  | case4 cpu cpus net nets h1 h2 ih =>
      intro p q h
      simp only [findOverlapLoop, h1, h2, if_true, if_false] at h
      obtain ⟨hp, hq, hqual⟩ := ih p q h
      exact ⟨List.mem_cons_of_mem _ hp, hq, hqual⟩
  | case5 cpu cpus =>
      intro p q h
      simp [findOverlapLoop] at h
  | case6 nets =>
      intro p q h
      simp [findOverlapLoop] at h

/-- The pair returned by the matcher loop on ascending inputs minimises the
candidate window start `max cpu.start net.start` among all qualifying
pairs. -/
theorem findOverlapLoop_found_minimal :
    ∀ (cpus nets : List TimePeriod),
      AscendingByStart cpus → AscendingByStart nets →
      ∀ p q, findOverlapLoop cpus nets = OverlapResult.found p q →
      ∀ c ∈ cpus, ∀ n ∈ nets, qualifies c n = true →
        max p.start q.start ≤ max c.start n.start := by
  intro cpus nets
  induction cpus, nets using findOverlapLoop.induct with
  | case1 cpu cpus net nets h1 h2 =>
      intro hc hn p q h c hcmem n hnmem _
      simp only [findOverlapLoop, h1, h2, if_true, if_pos] at h
      simp only [OverlapResult.found.injEq] at h
      obtain ⟨rfl, rfl⟩ := h
      exact max_le_max (head_start_le hc hcmem) (head_start_le hn hnmem)
  | case2 cpu cpus net nets h1 h2 ih =>
      intro hc hn p q h c hcmem n hnmem hqual
      simp only [findOverlapLoop, h1, h2, if_true, if_false] at h
      rcases List.mem_cons.mp hnmem with rfl | hnmem
      · have := qualifies_false_of_net_discard h1 h2 (head_start_le hc hcmem)
        rw [hqual] at this
        cases this
      · exact ih hc hn.tail p q h c hcmem n hnmem hqual
  | case3 cpu cpus net nets h1 h2 =>
      intro hc hn p q h c hcmem n hnmem _
      simp only [findOverlapLoop, h1, h2, if_true, if_false] at h
      simp only [OverlapResult.found.injEq] at h
      obtain ⟨rfl, rfl⟩ := h
      exact max_le_max (head_start_le hc hcmem) (head_start_le hn hnmem)
  | case4 cpu cpus net nets h1 h2 ih =>
      intro hc hn p q h c hcmem n hnmem hqual
      simp only [findOverlapLoop, h1, h2, if_true, if_false] at h
      rcases List.mem_cons.mp hcmem with rfl | hcmem
      · have := qualifies_false_of_cpu_discard h1 h2 (head_start_le hn hnmem)
        rw [hqual] at this
        cases this
      · exact ih hc.tail hn p q h c hcmem n hnmem hqual
  | case5 cpu cpus =>
      intro _ _ p q h
      simp [findOverlapLoop] at h
  | case6 nets =>
      intro _ _ p q h
      simp [findOverlapLoop] at h

/-- If the matcher loop fails on ascending inputs, no pair of periods of
the two lists qualifies. -/
theorem findOverlapLoop_error_no_pair :
    ∀ (cpus nets : List TimePeriod),
      AscendingByStart cpus → AscendingByStart nets →
      (∀ p q, findOverlapLoop cpus nets ≠ OverlapResult.found p q) →
      ∀ c ∈ cpus, ∀ n ∈ nets, qualifies c n = false := by
  intro cpus nets
  induction cpus, nets using findOverlapLoop.induct with
  | case1 cpu cpus net nets h1 h2 =>
      intro _ _ hne
      exfalso
      apply hne cpu net
      simp only [findOverlapLoop, h1, h2, if_true, if_pos]
  | case2 cpu cpus net nets h1 h2 ih =>
      intro hc hn hne c hcmem n hnmem
      have hstep : findOverlapLoop (cpu :: cpus) (net :: nets) =
          findOverlapLoop (cpu :: cpus) nets := by
        simp only [findOverlapLoop, h1, h2, if_true, if_false]
      rcases List.mem_cons.mp hnmem with rfl | hnmem
      · exact qualifies_false_of_net_discard h1 h2 (head_start_le hc hcmem)
      · exact ih hc hn.tail (fun p q => hstep ▸ hne p q) c hcmem n hnmem
  | case3 cpu cpus net nets h1 h2 =>
      intro _ _ hne
      exfalso
      apply hne cpu net
      simp only [findOverlapLoop, h1, h2, if_true, if_false]
  | case4 cpu cpus net nets h1 h2 ih =>
      intro hc hn hne c hcmem n hnmem
      have hstep : findOverlapLoop (cpu :: cpus) (net :: nets) =
          findOverlapLoop cpus (net :: nets) := by
        simp only [findOverlapLoop, h1, h2, if_true, if_false]
      rcases List.mem_cons.mp hcmem with rfl | hcmem
      · exact qualifies_false_of_cpu_discard h1 h2 (head_start_le hn hnmem)
      · exact ih hc.tail hn (fun p q => hstep ▸ hne p q) c hcmem n hnmem
  | case5 cpu cpus =>
      intro _ _ _ c _ n hnmem
      simp at hnmem
  | case6 nets =>
      intro _ _ _ c hcmem
      simp at hcmem

example : _findCPUQuietPeriods [] 0 10000 = [⟨0, 10000⟩] := by
  norm_num [_findCPUQuietPeriods]
example : _findCPUQuietPeriods [⟨3000, 3100⟩] 0 10000 =
    [⟨0, 3000⟩, ⟨3100, 10000⟩] := by
  norm_num [_findCPUQuietPeriods, cpuGapPeriods]
example : _findCPUQuietPeriods [⟨100, 200⟩] 1000 10000 =
    [⟨0, 1100⟩, ⟨1200, 10000⟩] := by
  norm_num [_findCPUQuietPeriods, cpuGapPeriods]
example : findOverlapLoop [⟨0, 10000⟩] [⟨0, 10000⟩] =
    .found ⟨0, 10000⟩ ⟨0, 10000⟩ := by
  norm_num [findOverlapLoop, REQUIRED_QUIET_WINDOW]
example :
    computeObservedMetric [] [⟨0, 10000⟩]
      ⟨0, 2000000, 2500000, 10000000⟩ = .ok ⟨2500, 2500000⟩ := by
  norm_num [computeObservedMetric, findOverlappingQuietPeriods, cpuFiltered,
    netFiltered, _findCPUQuietPeriods, cpuGapPeriods, isLongEnoughQuietPeriod,
    REQUIRED_QUIET_WINDOW, findOverlapLoop, List.filter]

/-! ## Claim theorems -/

/-- C1: For every pair of ascending, pre-filtered `TimePeriod` lists (CPU,
network), `findOverlapLoop` (the two-cursor loop of
`findOverlappingQuietPeriods`) returns the earliest qualifying pair
`(cpu, net)` under the rule: if `cpu.start >= net.start` the match requires
`net.end >= cpu.start + 5000`, and if `net.start > cpu.start` the match
requires `cpu.end >= net.start + 5000` (the rule `qualifies`, whose `>=`
comparison makes equal starts take the CPU branch first).  A failed
CPU-branch test advances the network cursor and a failed network-branch
test advances the CPU cursor (first two conjuncts); any returned pair
comes from the lists, qualifies, and minimises the candidate window start
`max cpu.start net.start` over all qualifying pairs (third conjunct); and
whenever some qualifying pair exists a pair is returned (fourth
conjunct). -/
theorem C1_overlap_matcher_earliest_pair :
    (∀ (cpu net : TimePeriod) (cpus nets : List TimePeriod),
        cpu.start ≥ net.start →
        ¬ net.«end» ≥ cpu.start + REQUIRED_QUIET_WINDOW →
        findOverlapLoop (cpu :: cpus) (net :: nets) =
          findOverlapLoop (cpu :: cpus) nets) ∧
    (∀ (cpu net : TimePeriod) (cpus nets : List TimePeriod),
        ¬ cpu.start ≥ net.start →
        ¬ cpu.«end» ≥ net.start + REQUIRED_QUIET_WINDOW →
        findOverlapLoop (cpu :: cpus) (net :: nets) =
          findOverlapLoop cpus (net :: nets)) ∧
    (∀ (cpus nets : List TimePeriod),
        AscendingByStart cpus → AscendingByStart nets →
        ∀ p q, findOverlapLoop cpus nets = OverlapResult.found p q →
          p ∈ cpus ∧ q ∈ nets ∧ qualifies p q = true ∧
            ∀ c ∈ cpus, ∀ n ∈ nets, qualifies c n = true →
              max p.start q.start ≤ max c.start n.start) ∧
    (∀ (cpus nets : List TimePeriod),
        AscendingByStart cpus → AscendingByStart nets →
        (∃ c ∈ cpus, ∃ n ∈ nets, qualifies c n = true) →
        ∃ p q, findOverlapLoop cpus nets = OverlapResult.found p q) := by
  refine ⟨?_, ?_, ?_, ?_⟩
  · intro cpu net cpus nets h1 h2
    simp only [findOverlapLoop, h1, h2, if_true, if_false]
  · intro cpu net cpus nets h1 h2
    simp only [findOverlapLoop, h1, h2, if_true, if_false]
  · intro cpus nets hc hn p q h
    obtain ⟨hp, hq, hqual⟩ := findOverlapLoop_found_sound cpus nets p q h
    exact ⟨hp, hq, hqual, findOverlapLoop_found_minimal cpus nets hc hn p q h⟩
  · intro cpus nets hc hn ⟨c, hcmem, n, hnmem, hqual⟩
    by_contra hnone
    push_neg at hnone
    have := findOverlapLoop_error_no_pair cpus nets hc hn
      (fun p q => hnone p q) c hcmem n hnmem
    rw [hqual] at this
    cases this

/-- Witness for C1 at the concrete ascending lists `[(2000, 9000)]` and
`[(1000, 8000)]`, whose unique pair is returned by the loop and
qualifies. -/
theorem C1_witness :
    (⟨2000, 9000⟩ : TimePeriod) ∈ [(⟨2000, 9000⟩ : TimePeriod)] ∧
    (⟨1000, 8000⟩ : TimePeriod) ∈ [(⟨1000, 8000⟩ : TimePeriod)] ∧
    qualifies ⟨2000, 9000⟩ ⟨1000, 8000⟩ = true := by
  have h := C1_overlap_matcher_earliest_pair.2.2.1
    [⟨2000, 9000⟩] [⟨1000, 8000⟩]
    (by simp [AscendingByStart]) (by simp [AscendingByStart])
    ⟨2000, 9000⟩ ⟨1000, 8000⟩
    (by norm_num [findOverlapLoop, REQUIRED_QUIET_WINDOW])
  exact ⟨h.1, h.2.1, h.2.2.1⟩

/-- C4: if the network cursor is exhausted while a CPU candidate remains,
the loop reports the no-network-idle-period outcome and
`findOverlappingQuietPeriods` raises `NO_TTI_NETWORK_IDLE_PERIOD`; if the
CPU cursor is exhausted, the loop reports the no-CPU-idle-period outcome
and `findOverlappingQuietPeriods` raises `NO_TTI_CPU_IDLE_PERIOD`; both
are `Except.error` results, so no `QuietPeriodInfo` is returned. -/
theorem C4_exhaustion_error_kinds :
    (∀ (cpu : TimePeriod) (cpus : List TimePeriod),
        findOverlapLoop (cpu :: cpus) [] = OverlapResult.noNetworkIdle) ∧
    (∀ nets : List TimePeriod,
        findOverlapLoop [] nets = OverlapResult.noCpuIdle) ∧
    (∀ (lt nr : List TimePeriod) (ts : Timestamps),
        findOverlapLoop (cpuFiltered lt ts) (netFiltered nr ts) =
            OverlapResult.noNetworkIdle →
        findOverlappingQuietPeriods lt nr ts =
          Except.error LHErrorKind.NO_TTI_NETWORK_IDLE_PERIOD) ∧
    (∀ (lt nr : List TimePeriod) (ts : Timestamps),
        findOverlapLoop (cpuFiltered lt ts) (netFiltered nr ts) =
            OverlapResult.noCpuIdle →
        findOverlappingQuietPeriods lt nr ts =
          Except.error LHErrorKind.NO_TTI_CPU_IDLE_PERIOD) := by
  refine ⟨?_, ?_, ?_, ?_⟩
  · intro cpu cpus
    simp [findOverlapLoop]
  · intro nets
    cases nets <;> simp [findOverlapLoop]
  · intro lt nr ts h
    simp only [findOverlappingQuietPeriods, h]
  · intro lt nr ts h
    simp only [findOverlappingQuietPeriods, h]

/-- Witness for C4: with no network quiet periods but one qualifying CPU
quiet period, the network-side error kind is raised. -/
theorem C4_witness :
    findOverlappingQuietPeriods [] [] ⟨0, 1000000, 1000000, 20000000⟩ =
      Except.error LHErrorKind.NO_TTI_NETWORK_IDLE_PERIOD :=
  C4_exhaustion_error_kinds.2.2.1 [] [] ⟨0, 1000000, 1000000, 20000000⟩
    (by norm_num [cpuFiltered, netFiltered, _findCPUQuietPeriods,
      isLongEnoughQuietPeriod, REQUIRED_QUIET_WINDOW, List.filter,
      findOverlapLoop])

/-- C5: a falsy (absent or zero) `firstMeaningfulPaint` raises `NO_FMP`,
and a falsy `domContentLoaded` raises `NO_DCL`; both checks run before the
overlap matcher, so they fire for every event list and every network
quiet-period list, independently of the no-quiet-period errors. -/
theorem C5_missing_fmp_dcl :
    ∀ (events : List Event) (nr : List TimePeriod) (ts : Timestamps),
      (ts.firstMeaningfulPaint = 0 →
        computeObservedMetric events nr ts = Except.error LHErrorKind.NO_FMP) ∧
      (ts.firstMeaningfulPaint ≠ 0 → ts.domContentLoaded = 0 →
        computeObservedMetric events nr ts = Except.error LHErrorKind.NO_DCL) := by
  intro events nr ts
  constructor
  · intro h
    simp [computeObservedMetric, h]
  · intro h1 h2
    simp [computeObservedMetric, h1, h2]

/-- Witness for C5 at concrete timestamps with `firstMeaningfulPaint = 0`
and with `domContentLoaded = 0`. -/
theorem C5_witness :
    computeObservedMetric [] [] ⟨0, 0, 0, 0⟩ =
        Except.error LHErrorKind.NO_FMP ∧
    computeObservedMetric [] [] ⟨0, 7000000, 0, 0⟩ =
        Except.error LHErrorKind.NO_DCL :=
  ⟨(C5_missing_fmp_dcl [] [] ⟨0, 0, 0, 0⟩).1 rfl,
    (C5_missing_fmp_dcl [] [] ⟨0, 7000000, 0, 0⟩).2 (by norm_num) rfl⟩

/-- C6: the quiet-window filter keeps a period if and only if it already
was in the list, its length `end - start` is at least
`REQUIRED_QUIET_WINDOW` (5000 ms) and its `end` exceeds
`FMPTsInMs + REQUIRED_QUIET_WINDOW`; periods failing either condition are
removed and periods satisfying both are never removed. -/
theorem C6_quiet_window_filter_iff :
    ∀ (FMPTsInMs : ℚ) (l : List TimePeriod) (period : TimePeriod),
      period ∈ l.filter (isLongEnoughQuietPeriod FMPTsInMs) ↔
        period ∈ l ∧
          period.«end» - period.start ≥ REQUIRED_QUIET_WINDOW ∧
          period.«end» > FMPTsInMs + REQUIRED_QUIET_WINDOW := by
  intro FMPTsInMs l period
  simp only [List.mem_filter, isLongEnoughQuietPeriod, Bool.and_eq_true,
    decide_eq_true_eq]
  tauto

/-- Witness for C6 at a concrete period and filter input. -/
theorem C6_witness :
    (⟨1000, 7000⟩ : TimePeriod) ∈
        List.filter (isLongEnoughQuietPeriod 100) [⟨1000, 7000⟩] ↔
      (⟨1000, 7000⟩ : TimePeriod) ∈ [(⟨1000, 7000⟩ : TimePeriod)] ∧
        (⟨1000, 7000⟩ : TimePeriod).«end» - (⟨1000, 7000⟩ : TimePeriod).start ≥
          REQUIRED_QUIET_WINDOW ∧
        (⟨1000, 7000⟩ : TimePeriod).«end» > 100 + REQUIRED_QUIET_WINDOW :=
  C6_quiet_window_filter_iff 100 [⟨1000, 7000⟩] ⟨1000, 7000⟩

/-- C10: if the filtered CPU quiet-period list is empty,
`findOverlappingQuietPeriods` raises the CPU-side error kind
`NO_TTI_CPU_IDLE_PERIOD` regardless of the network list; in particular
this, and not the network-side kind, is raised when both filtered lists
are empty. -/
theorem C10_empty_cpu_list_cpu_error :
    ∀ (lt nr : List TimePeriod) (ts : Timestamps),
      cpuFiltered lt ts = [] →
      findOverlappingQuietPeriods lt nr ts =
        Except.error LHErrorKind.NO_TTI_CPU_IDLE_PERIOD := by
  intro lt nr ts h
  have hloop : findOverlapLoop (cpuFiltered lt ts) (netFiltered nr ts) =
      OverlapResult.noCpuIdle := by
    rw [h]
    cases netFiltered nr ts <;> simp [findOverlapLoop]
  simp only [findOverlappingQuietPeriods, hloop]

/-- Witness for C10: with a huge `firstMeaningfulPaint` both filtered lists
are empty, and the CPU-side error kind is raised. -/
theorem C10_witness :
    cpuFiltered [] ⟨0, 50000000, 50000000, 10000000⟩ = [] ∧
    netFiltered [⟨0, 10000⟩] ⟨0, 50000000, 50000000, 10000000⟩ = [] ∧
    findOverlappingQuietPeriods [] [⟨0, 10000⟩]
        ⟨0, 50000000, 50000000, 10000000⟩ =
      Except.error LHErrorKind.NO_TTI_CPU_IDLE_PERIOD :=
  ⟨by norm_num [cpuFiltered, _findCPUQuietPeriods, isLongEnoughQuietPeriod,
      REQUIRED_QUIET_WINDOW, List.filter],
    by norm_num [netFiltered, isLongEnoughQuietPeriod,
      REQUIRED_QUIET_WINDOW, List.filter],
    C10_empty_cpu_list_cpu_error [] [⟨0, 10000⟩]
      ⟨0, 50000000, 50000000, 10000000⟩
      (by norm_num [cpuFiltered, _findCPUQuietPeriods,
        isLongEnoughQuietPeriod, REQUIRED_QUIET_WINDOW, List.filter])⟩

/-- Closed form of the gap-emitting loop: one gap per consecutive pair of
tasks, then the final gap up to `traceEndTsInMs`, all task boundaries
shifted by `navStartTsInMs`. -/
theorem cpuGapPeriods_eq :
    ∀ (rest : List TimePeriod) (t : TimePeriod) (nav te : ℚ),
      cpuGapPeriods nav te (t :: rest) =
        ((t :: rest).zip rest).map
            (fun pair => ⟨pair.1.«end» + nav, pair.2.start + nav⟩) ++
          [⟨((t :: rest).getLast (List.cons_ne_nil t rest)).«end» + nav, te⟩] := by
  intro rest
  induction rest with
  | nil =>
      intro t nav te
      simp [cpuGapPeriods]
  | cons t2 l ih =>
      intro t nav te
      have hlast : (t :: t2 :: l).getLast (List.cons_ne_nil t (t2 :: l)) =
          (t2 :: l).getLast (List.cons_ne_nil t2 l) := by
        rw [List.getLast_cons]
      simp only [cpuGapPeriods, ih t2 nav te, List.zip_cons_cons,
        List.map_cons, List.cons_append, hlast]

/-- C2 (amended): `_findCPUQuietPeriods` returns `[{0, traceEndTsInMs}]`
for an empty long-task list; otherwise it returns
`[0, firstTask.start + navStartTsInMs]`, then for each consecutive pair of
tasks the gap `[task.end + navStartTsInMs, next.start + navStartTsInMs]`,
then finally `[lastTask.end + navStartTsInMs, traceEndTsInMs]`, where
`navStartTsInMs = navigationStart / 1000`.  The unshifted boundaries
claimed by the spec are produced exactly when `navStartTsInMs = 0`. -/
theorem C2_cpu_quiet_periods_shape :
    (∀ nav te : ℚ, _findCPUQuietPeriods [] nav te = [⟨0, te⟩]) ∧
    (∀ (t : TimePeriod) (rest : List TimePeriod) (nav te : ℚ),
        _findCPUQuietPeriods (t :: rest) nav te =
          ⟨0, t.start + nav⟩ ::
            (((t :: rest).zip rest).map
              (fun pair => ⟨pair.1.«end» + nav, pair.2.start + nav⟩) ++
              [⟨((t :: rest).getLast (List.cons_ne_nil t rest)).«end» + nav,
                te⟩])) := by
  constructor
  · intro nav te
    rfl
  · intro t rest nav te
    simp only [_findCPUQuietPeriods, cpuGapPeriods_eq]

/-- C2 counterexample: with `navigationStart` worth 1000 ms, the task
`[100, 200]` and `traceEndTsInMs = 10000`, the code returns
`[[0, 1100], [1200, 10000]]`, not the unshifted `[[0, 100], [200, 10000]]`
stated by the claim. -/
theorem C2_counterexample :
    _findCPUQuietPeriods [⟨100, 200⟩] 1000 10000 =
        [⟨0, 1100⟩, ⟨1200, 10000⟩] ∧
    _findCPUQuietPeriods [⟨100, 200⟩] 1000 10000 ≠
        [⟨0, 100⟩, ⟨200, 10000⟩] := by
  constructor <;>
    norm_num [_findCPUQuietPeriods, cpuGapPeriods, TimePeriod.mk.injEq]

/-- C3 (amended): on success, the returned `timestamp` equals
`max(cpuQuietPeriod.start, firstMeaningfulPaint / 1000,
domContentLoaded / 1000) * 1000` — the maximum is taken in milliseconds and
then scaled back to microseconds — and the returned `timing` equals
`(timestamp - navigationStart) / 1000`, which is in milliseconds while
`timestamp` is in microseconds. -/
theorem C3_metric_assembly :
    ∀ (events : List Event) (nr : List TimePeriod) (ts : Timestamps)
      (r : MetricResult) (info : QuietPeriodInfo),
      computeObservedMetric events nr ts = Except.ok r →
      findOverlappingQuietPeriods
          ((events.filter (fun event => decide (event.duration ≥ 50))).map
            (fun event => TimePeriod.mk event.start event.«end»)) nr ts =
        Except.ok info →
      r.timestamp =
          max (max info.cpuQuietPeriod.start (ts.firstMeaningfulPaint / 1000))
            (ts.domContentLoaded / 1000) * 1000 ∧
      r.timing = (r.timestamp - ts.navigationStart) / 1000 := by
  intro events nr ts r info h1 h2
  simp only [computeObservedMetric] at h1
  split_ifs at h1
  rw [h2] at h1
  simp only [Except.ok.injEq] at h1
  subst h1
  exact ⟨rfl, rfl⟩

/-- C3 counterexample: end-to-end scenario with `navigationStart = 0`,
`FMP = 2000000 µs`, `DCL = 2500000 µs`, `traceEnd = 10000000 µs`, no long
tasks and the network quiet for `[0, 10000]` ms.  The code returns
`timing = 2500` but `timestamp = 2500000`: the returned `timestamp` is in
microseconds, so `timing ≠ timestamp - navigationStart` and the two fields
are not both in milliseconds as the claim states. -/
theorem C3_counterexample :
    computeObservedMetric [] [⟨0, 10000⟩] ⟨0, 2000000, 2500000, 10000000⟩ =
        Except.ok ⟨2500, 2500000⟩ ∧
    (MetricResult.mk 2500 2500000).timing ≠
        (MetricResult.mk 2500 2500000).timestamp -
          (Timestamps.mk 0 2000000 2500000 10000000).navigationStart := by
  constructor
  · norm_num [computeObservedMetric, findOverlappingQuietPeriods, cpuFiltered,
      netFiltered, _findCPUQuietPeriods, cpuGapPeriods, isLongEnoughQuietPeriod,
      REQUIRED_QUIET_WINDOW, findOverlapLoop, List.filter]
  · norm_num

/-- Witness for C3 at a successful concrete computation. -/
theorem C3_witness :
    (3500000 : ℚ) =
        max (max 0 ((3000000 : ℚ) / 1000)) ((3500000 : ℚ) / 1000) * 1000 ∧
    (3500 : ℚ) = ((3500000 : ℚ) - 0) / 1000 :=
  C3_metric_assembly [] [⟨0, 12000⟩] ⟨0, 3000000, 3500000, 12000000⟩
    ⟨3500, 3500000⟩ ⟨⟨0, 12000⟩, ⟨0, 12000⟩, [⟨0, 12000⟩], [⟨0, 12000⟩]⟩
    (by norm_num [computeObservedMetric, findOverlappingQuietPeriods,
      cpuFiltered, netFiltered, _findCPUQuietPeriods, cpuGapPeriods,
      isLongEnoughQuietPeriod, REQUIRED_QUIET_WINDOW, findOverlapLoop,
      List.filter])
    (by norm_num [findOverlappingQuietPeriods, cpuFiltered, netFiltered,
      _findCPUQuietPeriods, cpuGapPeriods, isLongEnoughQuietPeriod,
      REQUIRED_QUIET_WINDOW, findOverlapLoop, List.filter])

/-- C9: whenever `findOverlappingQuietPeriods` returns successfully, the
5000 ms sub-window starting at the later period's start,
`[m, m + 5000]` with `m = max cpuQuietPeriod.start networkQuietPeriod.start`,
is contained in both returned periods. -/
theorem C9_mutual_quiet_window :
    ∀ (lt nr : List TimePeriod) (ts : Timestamps) (info : QuietPeriodInfo),
      findOverlappingQuietPeriods lt nr ts = Except.ok info →
      info.cpuQuietPeriod.start ≤
          max info.cpuQuietPeriod.start info.networkQuietPeriod.start ∧
      info.networkQuietPeriod.start ≤
          max info.cpuQuietPeriod.start info.networkQuietPeriod.start ∧
      max info.cpuQuietPeriod.start info.networkQuietPeriod.start +
          REQUIRED_QUIET_WINDOW ≤ info.cpuQuietPeriod.«end» ∧
      max info.cpuQuietPeriod.start info.networkQuietPeriod.start +
          REQUIRED_QUIET_WINDOW ≤ info.networkQuietPeriod.«end» := by
  intro lt nr ts info h
  simp only [findOverlappingQuietPeriods] at h
  cases hloop : findOverlapLoop (cpuFiltered lt ts) (netFiltered nr ts) with
  | found c n =>
      rw [hloop] at h
      simp only [Except.ok.injEq] at h
      subst h
      dsimp only
      obtain ⟨hcmem, hnmem, hqual⟩ :=
        findOverlapLoop_found_sound _ _ c n hloop
      have hclen : c.«end» - c.start ≥ REQUIRED_QUIET_WINDOW := by
        have := List.mem_filter.mp hcmem
        have hpred := this.2
        simp only [isLongEnoughQuietPeriod, Bool.and_eq_true,
          decide_eq_true_eq] at hpred
        exact hpred.2
      have hnlen : n.«end» - n.start ≥ REQUIRED_QUIET_WINDOW := by
        have := List.mem_filter.mp hnmem
        have hpred := this.2
        simp only [isLongEnoughQuietPeriod, Bool.and_eq_true,
          decide_eq_true_eq] at hpred
        exact hpred.2
      refine ⟨le_max_left _ _, le_max_right _ _, ?_, ?_⟩
      all_goals
        unfold qualifies at hqual
        by_cases hcn : c.start ≥ n.start
      · rw [if_pos hcn, decide_eq_true_eq] at hqual
        rw [max_eq_left hcn]
        linarith
      · rw [if_neg hcn, decide_eq_true_eq] at hqual
        push_neg at hcn
        rw [max_eq_right (le_of_lt hcn)]
        linarith
      · rw [if_pos hcn, decide_eq_true_eq] at hqual
        rw [max_eq_left hcn]
        linarith
      · rw [if_neg hcn, decide_eq_true_eq] at hqual
        push_neg at hcn
        rw [max_eq_right (le_of_lt hcn)]
        linarith
  | noNetworkIdle =>
      rw [hloop] at h
      simp at h
  | noCpuIdle =>
      rw [hloop] at h
      simp at h

/-- Witness for C9 at a concrete successful match with distinct periods. -/
theorem C9_witness :
    (3100 : ℚ) ≤ max (3100 : ℚ) 0 ∧
    (0 : ℚ) ≤ max (3100 : ℚ) 0 ∧
    max (3100 : ℚ) 0 + REQUIRED_QUIET_WINDOW ≤ 20000 ∧
    max (3100 : ℚ) 0 + REQUIRED_QUIET_WINDOW ≤ 20000 :=
  C9_mutual_quiet_window [⟨3000, 3100⟩] [⟨0, 20000⟩]
    ⟨0, 2000000, 2500000, 20000000⟩
    ⟨⟨3100, 20000⟩, ⟨0, 20000⟩, [⟨3100, 20000⟩], [⟨0, 20000⟩]⟩
    (by norm_num [findOverlappingQuietPeriods, cpuFiltered, netFiltered,
      _findCPUQuietPeriods, cpuGapPeriods, isLongEnoughQuietPeriod,
      REQUIRED_QUIET_WINDOW, findOverlapLoop, List.filter])

/-- C8 (amended): for every successful computation whose
`firstMeaningfulPaint` is at least `navigationStart` (true of any real
trace), the returned `timing` is non-negative — because the assembled
timestamp is at least `firstMeaningfulPaint`, not because the matched CPU
quiet period's start exceeds `navigationStart` (that start can be `0`). -/
theorem C8_timing_nonneg :
    ∀ (events : List Event) (nr : List TimePeriod) (ts : Timestamps)
      (r : MetricResult),
      ts.navigationStart ≤ ts.firstMeaningfulPaint →
      computeObservedMetric events nr ts = Except.ok r →
      0 ≤ r.timing := by
  intro events nr ts r hnav h
  simp only [computeObservedMetric] at h
  split_ifs at h
  cases hfo : findOverlappingQuietPeriods
      ((events.filter (fun event => decide (event.duration ≥ 50))).map
        (fun event => TimePeriod.mk event.start event.«end»)) nr ts with
  | error e =>
      rw [hfo] at h
      simp at h
  | ok info =>
      rw [hfo] at h
      simp only [Except.ok.injEq] at h
      subst h
      dsimp only
      have h1 : ts.firstMeaningfulPaint / 1000 ≤
          max (max info.cpuQuietPeriod.start (ts.firstMeaningfulPaint / 1000))
            (ts.domContentLoaded / 1000) :=
        le_trans (le_max_right _ _) (le_max_left _ _)
      have h2 : ts.firstMeaningfulPaint / 1000 * 1000 ≤
          max (max info.cpuQuietPeriod.start (ts.firstMeaningfulPaint / 1000))
            (ts.domContentLoaded / 1000) * 1000 :=
        mul_le_mul_of_nonneg_right h1 (by norm_num)
      have h3 : ts.firstMeaningfulPaint / 1000 * 1000 =
          ts.firstMeaningfulPaint :=
        div_mul_cancel₀ _ (by norm_num)
      apply div_nonneg _ (by norm_num : (0 : ℚ) ≤ 1000)
      rw [sub_nonneg]
      linarith [h2, h3, hnav]

/-- C8 counterexample: a successful computation with
`navigationStart = 20000000 µs` and `FMP = 6000000 µs` (an input violating
the trace invariant `FMP ≥ navigationStart`) returns the negative
`timing = -13500`; the matched CPU quiet period's start is `0`, which is
less than `navigationStart / 1000 = 20000` ms, contradicting the claim's
"by construction" justification. -/
theorem C8_counterexample :
    computeObservedMetric [] [⟨0, 15000⟩]
        ⟨20000000, 6000000, 6500000, 15000000⟩ =
      Except.ok ⟨-13500, 6500000⟩ ∧
    (MetricResult.mk (-13500) 6500000).timing < 0 ∧
    findOverlappingQuietPeriods [] [⟨0, 15000⟩]
        ⟨20000000, 6000000, 6500000, 15000000⟩ =
      Except.ok ⟨⟨0, 15000⟩, ⟨0, 15000⟩, [⟨0, 15000⟩], [⟨0, 15000⟩]⟩ ∧
    (TimePeriod.mk 0 15000).start <
      (Timestamps.mk 20000000 6000000 6500000 15000000).navigationStart /
        1000 := by
  refine ⟨?_, by norm_num, ?_, by norm_num⟩
  · norm_num [computeObservedMetric, findOverlappingQuietPeriods, cpuFiltered,
      netFiltered, _findCPUQuietPeriods, cpuGapPeriods, isLongEnoughQuietPeriod,
      REQUIRED_QUIET_WINDOW, findOverlapLoop, List.filter]
  · norm_num [findOverlappingQuietPeriods, cpuFiltered, netFiltered,
      _findCPUQuietPeriods, cpuGapPeriods, isLongEnoughQuietPeriod,
      REQUIRED_QUIET_WINDOW, findOverlapLoop, List.filter]

/-- Witness for C8 at a successful computation with a non-zero
`navigationStart` below `firstMeaningfulPaint`. -/
theorem C8_witness : (0 : ℚ) ≤ (MetricResult.mk 1500 2500000).timing :=
  C8_timing_nonneg [] [⟨0, 11000⟩] ⟨1000000, 2000000, 2500000, 11000000⟩
    ⟨1500, 2500000⟩ (by norm_num)
    (by norm_num [computeObservedMetric, findOverlappingQuietPeriods,
      cpuFiltered, netFiltered, _findCPUQuietPeriods, cpuGapPeriods,
      isLongEnoughQuietPeriod, REQUIRED_QUIET_WINDOW, findOverlapLoop,
      List.filter])

/-! ## Helper lemmas for the CPU quiet-period partition property -/

/-- `listSet` of the empty list is empty. -/
theorem listSet_nil : listSet [] = ∅ := rfl

/-- `listSet` of a cons is the head interval united with the rest. -/
theorem listSet_cons (p : TimePeriod) (l : List TimePeriod) :
    listSet (p :: l) = Set.Icc p.start p.«end» ∪ listSet l := rfl

/-- In a wellformed chain of periods, a lower bound of the first start
bounds every start. -/
theorem chain_start_le_all :
    ∀ (l : List TimePeriod) (t : TimePeriod) (x : ℚ),
      (∀ p ∈ t :: l, p.start ≤ p.«end») →
      (t :: l).Chain' (fun a b => a.«end» ≤ b.start) →
      x ≤ t.start →
      ∀ q ∈ t :: l, x ≤ q.start := by
  intro l
  induction l with
  | nil =>
      intro t x _ _ hx q hq
      rcases List.mem_cons.mp hq with rfl | hq
      · exact hx
      · simp at hq
  | cons t2 l ih =>
      intro t x hwf hch hx q hq
      rcases List.mem_cons.mp hq with rfl | hq
      · exact hx
      · obtain ⟨hcc1, hcc2⟩ := List.chain'_cons.mp hch
        have h1 := hwf t (List.mem_cons_self _ _)
        exact ih t2 x (fun p hp => hwf p (List.mem_cons_of_mem _ hp)) hcc2
          (by linarith) q hq

/-- A wellformed chain of periods is pairwise non-overlapping. -/
theorem pairwise_of_chain_wf :
    ∀ (l : List TimePeriod),
      (∀ p ∈ l, p.start ≤ p.«end») →
      l.Chain' (fun a b => a.«end» ≤ b.start) →
      l.Pairwise (fun a b => a.«end» ≤ b.start) := by
  intro l
  induction l with
  | nil => intros; exact List.Pairwise.nil
  | cons t l ih =>
      intro hwf hch
      cases l with
      | nil => simp
      | cons t2 l2 =>
          obtain ⟨hcc1, hcc2⟩ := List.chain'_cons.mp hch
          refine List.Pairwise.cons ?_
            (ih (fun p hp => hwf p (List.mem_cons_of_mem _ hp)) hcc2)
          intro q hq
          exact chain_start_le_all l2 t2 t.«end»
            (fun p hp => hwf p (List.mem_cons_of_mem _ hp)) hcc2 hcc1 q hq

/-- In a wellformed chain of periods, the first start is at most the last
end. -/
theorem start_le_getLast_end :
    ∀ (l : List TimePeriod) (t : TimePeriod),
      (∀ p ∈ t :: l, p.start ≤ p.«end») →
      (t :: l).Chain' (fun a b => a.«end» ≤ b.start) →
      t.start ≤ ((t :: l).getLast (List.cons_ne_nil t l)).«end» := by
  intro l
  induction l with
  | nil =>
      intro t hwf _
      simpa using hwf t (List.mem_cons_self _ _)
  | cons t2 l ih =>
      intro t hwf hch
      have hlastEq : (t :: t2 :: l).getLast (List.cons_ne_nil t (t2 :: l)) =
          (t2 :: l).getLast (List.cons_ne_nil t2 l) := by
        rw [List.getLast_cons]
      rw [hlastEq]
      obtain ⟨hcc1, hcc2⟩ := List.chain'_cons.mp hch
      have h2 := ih t2 (fun p hp => hwf p (List.mem_cons_of_mem _ hp)) hcc2
      have h1 := hwf t (List.mem_cons_self _ _)
      linarith

/-- Structural properties of the gap periods derived from a wellformed,
chained task list: they are wellformed, chained, and all start at or after
the first task's shifted end. -/
theorem cpuGapPeriods_props :
    ∀ (l : List TimePeriod) (t : TimePeriod) (nav te : ℚ),
      (∀ p ∈ t :: l, p.start ≤ p.«end») →
      (t :: l).Chain' (fun a b => a.«end» ≤ b.start) →
      ((t :: l).getLast (List.cons_ne_nil t l)).«end» + nav ≤ te →
      (∀ p ∈ cpuGapPeriods nav te (t :: l), p.start ≤ p.«end») ∧
      (cpuGapPeriods nav te (t :: l)).Chain' (fun a b => a.«end» ≤ b.start) ∧
      (∀ p ∈ cpuGapPeriods nav te (t :: l), t.«end» + nav ≤ p.start) := by
  intro l
  induction l with
  | nil =>
      intro t nav te hwf hch hlast
      have hlast' : t.«end» + nav ≤ te := by simpa using hlast
      refine ⟨?_, ?_, ?_⟩
      · intro p hp
        simp only [cpuGapPeriods, List.mem_singleton] at hp
        subst hp
        exact hlast'
      · simp [cpuGapPeriods]
      · intro p hp
        simp only [cpuGapPeriods, List.mem_singleton] at hp
        subst hp
        exact le_refl _
  | cons t2 l ih =>
      intro t nav te hwf hch hlast
      obtain ⟨hcc1, hcc2⟩ := List.chain'_cons.mp hch
      have hlastEq : (t :: t2 :: l).getLast (List.cons_ne_nil t (t2 :: l)) =
          (t2 :: l).getLast (List.cons_ne_nil t2 l) := by
        rw [List.getLast_cons]
      rw [hlastEq] at hlast
      obtain ⟨gwf, gch, glb⟩ :=
        ih t2 nav te (fun p hp => hwf p (List.mem_cons_of_mem _ hp)) hcc2 hlast
      have hwft2 := hwf t2 (List.mem_cons_of_mem t (List.mem_cons_self t2 l))
      refine ⟨?_, ?_, ?_⟩
      · intro p hp
        simp only [cpuGapPeriods, List.mem_cons] at hp
        rcases hp with rfl | hp
        · simpa using add_le_add_right hcc1 nav
        · exact gwf p hp
      · show List.Chain' _ (⟨t.«end» + nav, t2.start + nav⟩ ::
          cpuGapPeriods nav te (t2 :: l))
        rw [List.chain'_cons']
        refine ⟨?_, gch⟩
        intro b hb
        have hbmem := List.mem_of_mem_head? hb
        have := glb b hbmem
        show t2.start + nav ≤ b.start
        linarith
      · intro p hp
        simp only [cpuGapPeriods, List.mem_cons] at hp
        rcases hp with rfl | hp
        · exact le_refl _
        · have := glb p hp
          linarith

/-- Coverage: the shifted tasks and the gap periods together cover exactly
the interval from the first task's shifted start to `te`. -/
theorem cpuGapPeriods_cover :
    ∀ (l : List TimePeriod) (t : TimePeriod) (nav te : ℚ),
      (∀ p ∈ t :: l, p.start ≤ p.«end») →
      (t :: l).Chain' (fun a b => a.«end» ≤ b.start) →
      ((t :: l).getLast (List.cons_ne_nil t l)).«end» + nav ≤ te →
      listSet ((t :: l).map (shiftPeriod nav)) ∪
          listSet (cpuGapPeriods nav te (t :: l)) =
        Set.Icc (t.start + nav) te := by
  intro l
  induction l with
  | nil =>
      intro t nav te hwf _ hlast
      have h1 := hwf t (List.mem_cons_self _ _)
      have hlast' : t.«end» + nav ≤ te := by simpa using hlast
      simp only [List.map_cons, List.map_nil, cpuGapPeriods, listSet_cons,
        listSet_nil, shiftPeriod, Set.union_empty]
      exact Set.Icc_union_Icc_eq_Icc (by linarith) hlast'
  | cons t2 l ih =>
      intro t nav te hwf hch hlast
      obtain ⟨hcc1, hcc2⟩ := List.chain'_cons.mp hch
      have hlastEq : (t :: t2 :: l).getLast (List.cons_ne_nil t (t2 :: l)) =
          (t2 :: l).getLast (List.cons_ne_nil t2 l) := by
        rw [List.getLast_cons]
      rw [hlastEq] at hlast
      have hwf' : ∀ p ∈ t2 :: l, p.start ≤ p.«end» :=
        fun p hp => hwf p (List.mem_cons_of_mem _ hp)
      have hIH := ih t2 nav te hwf' hcc2 hlast
      have hwft := hwf t (List.mem_cons_self _ _)
      have hwft2 := hwf t2 (List.mem_cons_of_mem t (List.mem_cons_self t2 l))
      have ht2te : t2.start + nav ≤ te := by
        have := start_le_getLast_end l t2 hwf' hcc2
        linarith
      ext x
      have hx := Set.ext_iff.mp hIH x
      simp only [List.map_cons, listSet_cons, cpuGapPeriods, shiftPeriod,
        Set.mem_union, Set.mem_Icc] at hx ⊢
      constructor
      · rintro ((⟨ha1, ha2⟩ | hS1) | (⟨hb1, hb2⟩ | hS2))
        · exact ⟨ha1, by linarith⟩
        · have := hx.mp (Or.inl hS1)
          exact ⟨by linarith [this.1], this.2⟩
        · exact ⟨by linarith, by linarith⟩
        · have := hx.mp (Or.inr hS2)
          exact ⟨by linarith [this.1], this.2⟩
      · rintro ⟨hx1, hx2⟩
        by_cases hxa : x ≤ t.«end» + nav
        · exact Or.inl (Or.inl ⟨hx1, hxa⟩)
        · by_cases hxb : x ≤ t2.start + nav
          · exact Or.inr (Or.inl ⟨by linarith, hxb⟩)
          · rcases hx.mpr ⟨by linarith, hx2⟩ with hS1 | hS2
            · exact Or.inl (Or.inr hS1)
            · exact Or.inr (Or.inr hS2)

/-- C7 (amended): for every wellformed long-task list (tasks within
`[0, ∞)`, each with `start ≤ end`, sorted and non-overlapping), every
`nav ≥ 0` and `te` with the last shifted task end at most `te`: the CPU
quiet periods are wellformed, pairwise non-overlapping, sorted ascending
by start, and their union together with the `nav`-shifted long-task
intervals exactly covers `[0, te]`.  (The unshifted task intervals of the
original claim partition `[0, te]` only when `nav = 0`.) -/
theorem C7_cpu_quiet_periods_partition :
    ∀ (tasks : List TimePeriod) (nav te : ℚ),
      0 ≤ nav → 0 ≤ te →
      (∀ p ∈ tasks, 0 ≤ p.start ∧ p.start ≤ p.«end») →
      tasks.Chain' (fun a b => a.«end» ≤ b.start) →
      (∀ h : tasks ≠ [], (tasks.getLast h).«end» + nav ≤ te) →
      (∀ p ∈ _findCPUQuietPeriods tasks nav te, p.start ≤ p.«end») ∧
      (_findCPUQuietPeriods tasks nav te).Pairwise
          (fun a b => a.«end» ≤ b.start) ∧
      AscendingByStart (_findCPUQuietPeriods tasks nav te) ∧
      listSet (_findCPUQuietPeriods tasks nav te) ∪
          listSet (tasks.map (shiftPeriod nav)) = Set.Icc 0 te := by
  intro tasks nav te hnav hte hwf hch hlast
  have hmain : (∀ p ∈ _findCPUQuietPeriods tasks nav te,
      p.start ≤ p.«end») ∧
      (_findCPUQuietPeriods tasks nav te).Pairwise
          (fun a b => a.«end» ≤ b.start) ∧
      listSet (_findCPUQuietPeriods tasks nav te) ∪
          listSet (tasks.map (shiftPeriod nav)) = Set.Icc 0 te := by
    cases tasks with
    | nil =>
        refine ⟨?_, ?_, ?_⟩
        · intro p hp
          simp only [_findCPUQuietPeriods, List.mem_singleton] at hp
          subst hp
          exact hte
        · simp [_findCPUQuietPeriods]
        · simp [_findCPUQuietPeriods, listSet_cons, listSet_nil]
    | cons t l =>
        have hwf' : ∀ p ∈ t :: l, p.start ≤ p.«end» :=
          fun p hp => (hwf p hp).2
        have h0s : 0 ≤ t.start := (hwf t (List.mem_cons_self _ _)).1
        have hwft := hwf' t (List.mem_cons_self _ _)
        have hlast' := hlast (List.cons_ne_nil t l)
        obtain ⟨gwf, gch, glb⟩ := cpuGapPeriods_props l t nav te hwf' hch hlast'
        have hcover := cpuGapPeriods_cover l t nav te hwf' hch hlast'
        have hs1te : t.start + nav ≤ te := by
          have := start_le_getLast_end l t hwf' hch
          linarith
        have hquiet : _findCPUQuietPeriods (t :: l) nav te =
            ⟨0, t.start + nav⟩ :: cpuGapPeriods nav te (t :: l) := rfl
        refine ⟨?_, ?_, ?_⟩
        · intro p hp
          rw [hquiet] at hp
          rcases List.mem_cons.mp hp with rfl | hp
          · show (0 : ℚ) ≤ t.start + nav
            linarith
          · exact gwf p hp
        · rw [hquiet]
          apply pairwise_of_chain_wf
          · intro p hp
            rcases List.mem_cons.mp hp with rfl | hp
            · show (0 : ℚ) ≤ t.start + nav
              linarith
            · exact gwf p hp
          · rw [List.chain'_cons']
            refine ⟨?_, gch⟩
            intro b hb
            have := glb b (List.mem_of_mem_head? hb)
            show t.start + nav ≤ b.start
            linarith
        · rw [hquiet, listSet_cons, Set.union_assoc,
            Set.union_comm (listSet (cpuGapPeriods nav te (t :: l))), hcover]
          exact Set.Icc_union_Icc_eq_Icc
            (show (0 : ℚ) ≤ t.start + nav by linarith) hs1te
  refine ⟨hmain.1, hmain.2.1, ?_, hmain.2.2⟩
  exact List.Pairwise.imp_of_mem
    (fun ha hb hr => le_trans (hmain.1 _ ha) hr) hmain.2.1

/-- C7 counterexample: with `navStartTsInMs = 1000`, the single wellformed,
sorted task `[100, 200]` and `traceEndTsInMs = 10000`, the instant `1150`
lies in `[0, 10000]` but neither in any derived CPU quiet period nor in the
(unshifted) long-task interval, so the union stated by the claim does not
cover `[0, traceEnd]`. -/
theorem C7_counterexample :
    (1150 : ℚ) ∈ Set.Icc (0 : ℚ) 10000 ∧
    (1150 : ℚ) ∉ listSet (_findCPUQuietPeriods [⟨100, 200⟩] 1000 10000) ∪
        listSet [(⟨100, 200⟩ : TimePeriod)] := by
  constructor
  · norm_num
  · norm_num [_findCPUQuietPeriods, cpuGapPeriods, listSet_cons, listSet_nil,
      Set.mem_union, Set.mem_Icc]

/-- Witness for C7: the coverage conclusion at the single task
`[3000, 3100]` with `nav = 0` and `te = 10000`. -/
theorem C7_witness :
    listSet (_findCPUQuietPeriods [⟨3000, 3100⟩] 0 10000) ∪
        listSet ([(⟨3000, 3100⟩ : TimePeriod)].map (shiftPeriod 0)) =
      Set.Icc 0 10000 :=
  (C7_cpu_quiet_periods_partition [⟨3000, 3100⟩] 0 10000 (by norm_num)
    (by norm_num)
    (by
      intro p hp
      simp only [List.mem_singleton] at hp
      subst hp
      norm_num)
    (by simp)
    (by
      intro h
      norm_num [List.getLast])).2.2.2
